import Mathlib

/-!
Verification of the bulk event loader (`scripts/bulk_load_events.py`) of the
clearlift-api repository.  The Python code is shallowly embedded: dictionaries
of loosely-typed values become records of `Option PyVal` fields, exceptions
become `Except PyErr`, the external Iceberg catalog becomes an explicit
`Catalog` state, and the non-deterministic inputs (uuid generation,
`datetime.now`) become explicit parameters.
-/

/-- A loosely-typed Python value as it can occur in an event dictionary.
`ts` models `pandas.Timestamp` / `datetime` values (with `none` standing for
pandas `NaT`); `pynone` models Python `None`. -/
inductive PyVal where
  | str (s : String)
  | float (q : Rat)
  | int (n : Int)
  | bool (b : Bool)
  | ts (t : Option Int)
  | pynone
deriving DecidableEq

/-- The exceptions the embedded code can raise.  `validationError` covers the
`ValueError`/`TypeError` raised while normalizing a record (the spec's
`ValidationError` taxonomy entry); `configMissing` is the `ValueError` raised
by `_load_config`, carrying the names of the missing required keys. -/
inductive PyErr where
  | validationError
  | configMissing (missing : List String)
  | keyError
  | indexError
deriving DecidableEq

/-- Python truthiness (`bool(v)`) for the values of `PyVal`.  Empty strings,
zero numbers, `False` and `None` are falsy; timestamp objects are truthy. -/
def truthy : PyVal → Bool
  | .str s => !s.isEmpty
  | .float q => q != 0
  | .int n => n != 0
  | .bool b => b
  | .ts _ => true
  | .pynone => false

/-- Truthiness of `event.get(key)`: an absent key yields Python `None`,
which is falsy. -/
def truthyOpt : Option PyVal → Bool
  | none => false
  | some v => truthy v

/-- Numeric value of a list of decimal digit characters. -/
def digitsToNat (cs : List Char) : Nat :=
  cs.foldl (fun a c => a * 10 + (c.toNat - 48)) 0

/-- Split a character list at the first decimal point, if any. -/
def splitDot : List Char → List Char × Option (List Char)
  | [] => ([], none)
  | c :: cs =>
      if c = '.' then ([], some cs)
      else
        let p := splitDot cs
        (c :: p.1, p.2)

/-- Digits with at most one decimal point (at least one digit in total);
a second decimal point lands in the fractional part and fails the digit
test, as in Python. -/
def parseUnsigned (cs : List Char) : Option Rat :=
  match splitDot cs with
  | (ip, none) =>
      if !ip.isEmpty && ip.all Char.isDigit then
        some (mkRat (Int.ofNat (digitsToNat ip)) 1)
      else none
  | (ip, some fp) =>
      if (!ip.isEmpty || !fp.isEmpty) && ip.all Char.isDigit
          && fp.all Char.isDigit then
        some (mkRat
          (Int.ofNat (digitsToNat ip * 10 ^ fp.length + digitsToNat fp))
          (10 ^ fp.length))
      else none

/-- Optional sign in front of the unsigned syntax. -/
def parseFloatChars : List Char → Option Rat
  | '-' :: rest => (parseUnsigned rest).map (fun q => -q)
  | '+' :: rest => parseUnsigned rest
  | cs => parseUnsigned cs

/-- Model of Python `float(s)` on strings: an optional sign followed by
decimal digits with at most one decimal point (at least one digit in total).
Returns `none` when the string cannot be converted (`ValueError`). -/
def parseFloat (s : String) : Option Rat :=
  parseFloatChars s.toList

/-- Model of Python `float(v)` on an event-dictionary value.  Strings go
through `parseFloat` (`ValueError` on failure); `None` and timestamp objects
raise `TypeError`.  Both failures fall under the spec's `ValidationError`. -/
def pyFloat : PyVal → Except PyErr Rat
  | .float q => .ok q
  | .int n => .ok (mkRat n 1)
  | .bool b => .ok (if b then 1 else 0)
  | .str s =>
      match parseFloat s with
      | some q => .ok q
      | none => .error .validationError
  | .pynone => .error .validationError
  | .ts _ => .error .validationError

/-- Model of `pandas.to_datetime` on a string: accepts `YYYY-MM-DD`,
optionally followed by `T` or a space and `HH:MM:SS`; anything else fails
(pandas raises for unparseable strings).  The returned integer is an abstract
encoding of the instant. -/
def parseTs (s : String) : Option Int :=
  match s.toList with
  | [y1, y2, y3, y4, '-', m1, m2, '-', d1, d2] =>
      if [y1, y2, y3, y4, m1, m2, d1, d2].all Char.isDigit then
        some (Int.ofNat (digitsToNat [y1, y2, y3, y4] * 10000
          + digitsToNat [m1, m2] * 100 + digitsToNat [d1, d2]))
      else none
  | [y1, y2, y3, y4, '-', m1, m2, '-', d1, d2, sep, h1, h2, ':', mi1, mi2, ':', s1, s2] =>
      if (sep == 'T' || sep == ' ')
          && [y1, y2, y3, y4, m1, m2, d1, d2, h1, h2, mi1, mi2, s1, s2].all Char.isDigit then
        some (Int.ofNat ((digitsToNat [y1, y2, y3, y4] * 10000
          + digitsToNat [m1, m2] * 100 + digitsToNat [d1, d2]) * 1000000
          + digitsToNat [h1, h2] * 10000 + digitsToNat [mi1, mi2] * 100
          + digitsToNat [s1, s2]))
      else none
  | _ => none

/-- An event record: the dictionary handled by `validate_events`, restricted
to the sixteen schema columns.  `none` means the key is absent from the
dictionary. -/
structure Record where
  id : Option PyVal
  organization_id : Option PyVal
  event_id : Option PyVal
  timestamp : Option PyVal
  event_type : Option PyVal
  event_value : Option PyVal
  currency : Option PyVal
  user_id : Option PyVal
  session_id : Option PyVal
  utm_source : Option PyVal
  utm_medium : Option PyVal
  utm_campaign : Option PyVal
  device_type : Option PyVal
  browser : Option PyVal
  country : Option PyVal
  attribution_path : Option PyVal
deriving DecidableEq

/-- The record with every key absent. -/
def emptyRecord : Record :=
  ⟨none, none, none, none, none, none, none, none,
   none, none, none, none, none, none, none, none⟩

/-- Lines 184-185: `if not event.get('id'): event['id'] = str(uuid.uuid4())`.
`g` is the uuid supply, `ctr` the index of the next fresh uuid. -/
def applyId (g : Nat → String) (ctr : Nat) (e : Record) : Record × Nat :=
  if truthyOpt e.id then (e, ctr)
  else ({ e with id := some (PyVal.str (g ctr)) }, ctr + 1)

/-- Lines 190-197: normalize the `timestamp` field.  Strings are parsed
(raising on failure), timestamp objects pass through unchanged, absent
timestamps become the current instant `now`, other values go through
`pd.to_datetime` (numbers succeed, `None` becomes `NaT`, `bool` raises). -/
def normTimestamp (now : Int) (e : Record) : Except PyErr Record :=
  match e.timestamp with
  | none => .ok { e with timestamp := some (PyVal.ts (some now)) }
  | some (PyVal.str s) =>
      match parseTs s with
      | some t => .ok { e with timestamp := some (PyVal.ts (some t)) }
      | none => .error PyErr.validationError
  | some (PyVal.ts _) => .ok e
  | some (PyVal.int n) => .ok { e with timestamp := some (PyVal.ts (some n)) }
  | some (PyVal.float q) => .ok { e with timestamp := some (PyVal.ts (some q.floor)) }
  | some (PyVal.bool _) => .error PyErr.validationError
  | some PyVal.pynone => .ok { e with timestamp := some (PyVal.ts none) }

/-- Lines 200-205: the `setdefault` calls.  The uuid arguments of the
`event_id` and `session_id` defaults are evaluated unconditionally in Python,
so the counter advances by two regardless of which keys were present. -/
def applyDefaults (g : Nat → String) (ctr : Nat) (e : Record) : Record × Nat :=
  ({ e with
      event_id := some (e.event_id.getD (PyVal.str (g ctr))),
      event_type := some (e.event_type.getD (PyVal.str "conversion")),
      event_value := some (e.event_value.getD (PyVal.float 0)),
      currency := some (e.currency.getD (PyVal.str "USD")),
      user_id := some (e.user_id.getD (PyVal.str "unknown")),
      session_id := some (e.session_id.getD (PyVal.str (g (ctr + 1)))) },
   ctr + 2)

/-- Line 208: `event['event_value'] = float(event['event_value'])`.
A lookup of an absent key would be a `KeyError` (unreachable after the
defaults have been applied). -/
def coerceValue (e : Record) : Except PyErr Record :=
  match e.event_value with
  | none => .error PyErr.keyError
  | some v =>
      match pyFloat v with
      | .ok q => .ok { e with event_value := some (PyVal.float q) }
      | .error err => .error err

/-- The loop body of `validate_events` (lines 182-210) for one record:
fill `id`, overwrite `organization_id` with the caller-supplied value,
normalize the timestamp, apply the defaults, coerce `event_value`. -/
def normalizeEvent (g : Nat → String) (now : Int) (org : String)
    (e : Record) (ctr : Nat) : Except PyErr (Record × Nat) :=
  let p1 := applyId g ctr e
  let e2 := { p1.1 with organization_id := some (PyVal.str org) }
  match normTimestamp now e2 with
  | .error err => .error err
  | .ok e3 =>
      let p4 := applyDefaults g p1.2 e3
      match coerceValue p4.1 with
      | .error err => .error err
      | .ok e5 => .ok (e5, p4.2)

/-- The fold of `validate_events` over the event list, threading the uuid
counter.  An exception aborts the whole batch. -/
def validateGo (g : Nat → String) (now : Int) (org : String) :
    List Record → Nat → Except PyErr (List Record)
  | [], _ => .ok []
  | e :: rest, ctr =>
      match normalizeEvent g now org e ctr with
      | .error err => .error err
      | .ok (e2, ctr2) =>
          match validateGo g now org rest ctr2 with
          | .error err => .error err
          | .ok out => .ok (e2 :: out)

/-- `EventBulkLoader.validate_events(events, organization_id)`
(lines 178-212), content view: the list of normalized records. -/
def validate_events (g : Nat → String) (now : Int)
    (events : List Record) (org : String) : Except PyErr (List Record) :=
  validateGo g now org events 0

/-- Store view of `validate_events`, making the in-place mutation of the
caller's dictionaries explicit: the events are cells of a heap (a list of
records) and the function receives their addresses.  Each record is
normalized and written back to its own cell, and the address itself — the
very dictionary object — is appended to the output list (line 210). -/
def validateHeapGo (g : Nat → String) (now : Int) (org : String) :
    List Nat → Nat → List Record → Except PyErr (List Nat × List Record)
  | [], _, heap => .ok ([], heap)
  | a :: rest, ctr, heap =>
      match heap.get? a with
      | none => .error PyErr.indexError
      | some e =>
          match normalizeEvent g now org e ctr with
          | .error err => .error err
          | .ok (e2, ctr2) =>
              match validateHeapGo g now org rest ctr2 (heap.set a e2) with
              | .error err => .error err
              | .ok (outs, heap3) => .ok (a :: outs, heap3)

/-- `validate_events`, store view (see `validateHeapGo`). -/
def validate_events_heap (g : Nat → String) (now : Int)
    (addrs : List Nat) (heap : List Record) (org : String) :
    Except PyErr (List Nat × List Record) :=
  validateHeapGo g now org addrs 0 heap

/-- One row of the columnar table, in the canonical column order of the
schema (lines 278-283).  A column absent from a record is materialized as
`None` (lines 286-288). -/
structure Row where
  id : PyVal
  organization_id : PyVal
  event_id : PyVal
  timestamp : PyVal
  event_type : PyVal
  event_value : PyVal
  currency : PyVal
  user_id : PyVal
  session_id : PyVal
  utm_source : PyVal
  utm_medium : PyVal
  utm_campaign : PyVal
  device_type : PyVal
  browser : PyVal
  country : PyVal
  attribution_path : PyVal
deriving DecidableEq

/-- Reindexing of a validated record into the canonical column order,
with absent columns as nulls (lines 277-293). -/
def recordToRow (e : Record) : Row :=
  ⟨e.id.getD PyVal.pynone, e.organization_id.getD PyVal.pynone,
   e.event_id.getD PyVal.pynone, e.timestamp.getD PyVal.pynone,
   e.event_type.getD PyVal.pynone, e.event_value.getD PyVal.pynone,
   e.currency.getD PyVal.pynone, e.user_id.getD PyVal.pynone,
   e.session_id.getD PyVal.pynone, e.utm_source.getD PyVal.pynone,
   e.utm_medium.getD PyVal.pynone, e.utm_campaign.getD PyVal.pynone,
   e.device_type.getD PyVal.pynone, e.browser.getD PyVal.pynone,
   e.country.getD PyVal.pynone, e.attribution_path.getD PyVal.pynone⟩

/-- A table snapshot as read by `query_table_stats`: the summary key-value
map (restricted to the three keys the code reads, `none` = key absent) and
the snapshot creation time in milliseconds. -/
structure Snapshot where
  total_records : Option Nat
  total_data_files : Option Nat
  total_file_size_bytes : Option Nat
  timestamp_ms : Int
deriving DecidableEq

/-- The externally owned Iceberg table: the sequence of committed slices in
commit order, and the snapshot metadata.  Summary contents of snapshots
created by an append are produced by the external catalog engine; no claim
reads them, so they are modelled as absent keys with a zero timestamp. -/
structure Table where
  committed : List (List Row)
  snapshots : List Snapshot
deriving DecidableEq

/-- `table.append(batch)` (line 308): one append commit, creating one new
snapshot. -/
def Table.append (t : Table) (batch : List Row) : Table :=
  ⟨t.committed ++ [batch], t.snapshots ++ [⟨none, none, none, 0⟩]⟩

/-- `table.current_snapshot()`: the latest snapshot, if any. -/
def Table.current_snapshot (t : Table) : Option Snapshot :=
  t.snapshots.getLast?

/-- The catalog service: the tables it tracks, keyed by identifier, and a
count of the `create_table` calls it has received. -/
structure Catalog where
  tables : List (String × Table)
  createCalls : Nat
deriving DecidableEq

/-- `catalog.load_table(identifier)`: `none` models the raised exception when
the identifier is unknown. -/
def lookupTable : List (String × Table) → String → Option Table
  | [], _ => none
  | p :: ps, ident => if p.1 = ident then some p.2 else lookupTable ps ident

/-- See `lookupTable`. -/
def Catalog.lookup (c : Catalog) (ident : String) : Option Table :=
  lookupTable c.tables ident

/-- Writing a mutated table handle back to the catalog (the remote effect of
the append commits issued through the handle). -/
def storeTables : List (String × Table) → String → Table → List (String × Table)
  | [], _, _ => []
  | p :: ps, ident, t =>
      if p.1 = ident then (ident, t) :: ps else p :: storeTables ps ident t

/-- See `storeTables`. -/
def Catalog.store (c : Catalog) (ident : String) (t : Table) : Catalog :=
  ⟨storeTables c.tables ident t, c.createCalls⟩

/-- Core of `create_or_get_table` (lines 145-176): try to load the table;
on any load failure, create it (empty, no snapshots) and register it. -/
def ensureTable (c : Catalog) (ident : String) : Table × Catalog :=
  match c.lookup ident with
  | some t => (t, c)
  | none =>
      let t : Table := ⟨[], []⟩
      (t, ⟨(ident, t) :: c.tables, c.createCalls + 1⟩)

/-- The configuration dictionary (known keys; `none` = key absent).  The
field `nspace` models the Python key `namespace` (a Lean keyword). -/
structure FileConfig where
  catalog_uri : Option String
  warehouse_name : Option String
  api_token : Option String
  account_id : Option String
  s3_endpoint : Option String
  bucket_name : Option String
  batch_size : Option Nat
  nspace : Option String
  table_name : Option String
deriving DecidableEq

/-- The six environment variables read by `_load_config` (lines 54-61). -/
structure EnvVars where
  datalake_catalog_uri : Option String
  datalake_warehouse_name : Option String
  cloudflare_api_token : Option String
  cloudflare_account_id : Option String
  r2_s3_api_url : Option String
  r2_bucket : Option String
deriving DecidableEq

/-- Line 64: `if env_value := os.getenv(env_key)` — the walrus condition is
a truthiness test, so an environment variable set to the empty string does
not override the file value. -/
def envOverride (v : Option String) (old : Option String) : Option String :=
  match v with
  | some s => if s.isEmpty then old else some s
  | none => old

/-- Lines 53-65: the file configuration overridden field-by-field by the
environment. -/
def mergeConfig (file : FileConfig) (env : EnvVars) : FileConfig :=
  { file with
    catalog_uri := envOverride env.datalake_catalog_uri file.catalog_uri,
    warehouse_name := envOverride env.datalake_warehouse_name file.warehouse_name,
    api_token := envOverride env.cloudflare_api_token file.api_token,
    account_id := envOverride env.cloudflare_account_id file.account_id,
    s3_endpoint := envOverride env.r2_s3_api_url file.s3_endpoint,
    bucket_name := envOverride env.r2_bucket file.bucket_name }

/-- Lines 68-69: the required keys absent from the merged configuration, in
the order of `required_fields`. -/
def missingRequired (c : FileConfig) : List String :=
  (if c.catalog_uri.isNone then ["catalog_uri"] else [])
    ++ (if c.warehouse_name.isNone then ["warehouse_name"] else [])
    ++ (if c.api_token.isNone then ["api_token"] else [])

/-- `EventBulkLoader._load_config` (lines 43-78): merge, check the required
keys (raising a `ValueError` naming the missing ones), then apply the
defaults with `setdefault`. -/
def load_config (file : FileConfig) (env : EnvVars) : Except PyErr FileConfig :=
  let c := mergeConfig file env
  match missingRequired c with
  | [] =>
      .ok { c with
        batch_size := some (c.batch_size.getD 10000),
        nspace := some (c.nspace.getD "default"),
        table_name := some (c.table_name.getD "conversion_events") }
  | ms => .error (PyErr.configMissing ms)

/-- Structural worker for the batch slicing: each step peels one slice,
with fuel bounding the number of slices (one element is consumed per step,
so `fuel = length` always suffices). -/
def chunkGo {α : Type} (bs : Nat) : Nat → List α → List (List α)
  | _, [] => []
  | 0, l => [l]
  | fuel + 1, x :: xs =>
      (x :: xs.take (bs - 1)) :: chunkGo bs fuel (xs.drop (bs - 1))

/-- The batch slicing of lines 303-305: `arrow_table.slice(i, ...)` for
`i in range(0, total_rows, batch_size)` — contiguous slices of `bs` rows,
the last being the remainder.  (For `bs = 0` Python's `range` raises; the
caller guards that case.) -/
def chunkList {α : Type} (bs : Nat) (l : List α) : List (List α) :=
  chunkGo bs l.length l

/-- `EventBulkLoader.bulk_load` (lines 249-313), starting from the record
list obtained from the input file.  `dry_run` returns after validation,
logging `validated_events[0]` — an `IndexError` on an empty batch.  The
non-dry path provisions the table, reindexes the records into rows, and
commits the slices in order, returning the total row count. -/
def bulk_load (cfg : FileConfig) (cat : Catalog) (g : Nat → String) (now : Int)
    (events : List Record) (org : String) (dry_run : Bool) :
    Except PyErr (Nat × Catalog) :=
  match validate_events g now events org with
  | .error err => .error err
  | .ok validated =>
      if dry_run then
        match validated with
        | [] => .error PyErr.indexError
        | _ :: _ => .ok (validated.length, cat)
      else
        match cfg.nspace, cfg.table_name with
        | some ns, some tn =>
            let ident := ns ++ "." ++ tn
            let tc := ensureTable cat ident
            let rows := validated.map recordToRow
            match cfg.batch_size with
            | none => .error PyErr.keyError
            | some bs =>
                if bs = 0 then .error PyErr.validationError
                else
                  .ok (rows.length,
                    Catalog.store tc.2 ident
                      (List.foldl Table.append tc.1 (chunkList bs rows)))
        | _, _ => .error PyErr.keyError

/-- The statistics dictionary built by `query_table_stats` (lines 326-335).
`last_updated` is modelled as the raw millisecond timestamp (`none` = the
Python `None`). -/
structure Stats where
  table_name : String
  row_count : Nat
  file_count : Nat
  total_size_bytes : Nat
  snapshot_count : Nat
  last_updated : Option Int
deriving DecidableEq

/-- Lines 322-335: read the current snapshot's summary with zero defaults;
without a current snapshot all counts are zero and `last_updated` is
`None`.  (The human-readable size rendering of lines 338-343 is pure
formatting and is not modelled.) -/
def mkStats (ident : String) (t : Table) : Stats :=
  match t.current_snapshot with
  | some s =>
      ⟨ident, s.total_records.getD 0, s.total_data_files.getD 0,
       s.total_file_size_bytes.getD 0, t.snapshots.length, some s.timestamp_ms⟩
  | none => ⟨ident, 0, 0, 0, t.snapshots.length, none⟩

/-- `EventBulkLoader.query_table_stats` (lines 315-348).  The identifier is
built from the configuration outside the `try` block (a `KeyError` there
propagates); any failure to load the table is caught and reported as the
empty dictionary, modelled as `.ok none`. -/
def query_table_stats (cat : Catalog) (cfg : FileConfig) :
    Except PyErr (Option Stats) :=
  match cfg.nspace, cfg.table_name with
  | some ns, some tn =>
      let ident := ns ++ "." ++ tn
      match cat.lookup ident with
      | none => .ok none
      | some t => .ok (some (mkStats ident t))
  | _, _ => .error PyErr.keyError

/-- Whether an `Except` value is a success. -/
def exceptOk {ε α : Type} : Except ε α → Bool
  | .ok _ => true
  | .error _ => false

/-- The `event_value` of the record (after defaulting) is convertible by
`float(...)`. -/
def valOk (e : Record) : Bool :=
  match e.event_value with
  | none => true
  | some v => exceptOk (pyFloat v)

/-- The `timestamp` of the record is accepted by the timestamp
normalization (absent, parseable string, timestamp object, or number). -/
def tsOk (e : Record) : Bool :=
  match e.timestamp with
  | none => true
  | some (PyVal.str s) => (parseTs s).isSome
  | some (PyVal.ts _) => true
  | some (PyVal.int _) => true
  | some (PyVal.float _) => true
  | some (PyVal.bool _) => false
  | some PyVal.pynone => true

/-- The defaulting behaviour of `validate_events`, record by record: `id` is
replaced exactly when absent or falsy, the six `setdefault` fields exactly
when absent, and the (present or defaulted) `event_value` is coerced to a
float. -/
def defaultsRel (e r : Record) : Prop :=
  (if truthyOpt e.id then r.id = e.id else ∃ s, r.id = some (PyVal.str s))
  ∧ (match e.event_id with
     | some v => r.event_id = some v
     | none => ∃ s, r.event_id = some (PyVal.str s))
  ∧ (match e.event_type with
     | some v => r.event_type = some v
     | none => r.event_type = some (PyVal.str "conversion"))
  ∧ (match e.event_value with
     | some v => ∃ q, pyFloat v = .ok q ∧ r.event_value = some (PyVal.float q)
     | none => r.event_value = some (PyVal.float 0))
  ∧ (match e.currency with
     | some v => r.currency = some v
     | none => r.currency = some (PyVal.str "USD"))
  ∧ (match e.user_id with
     | some v => r.user_id = some v
     | none => r.user_id = some (PyVal.str "unknown"))
  ∧ (match e.session_id with
     | some v => r.session_id = some v
     | none => ∃ s, r.session_id = some (PyVal.str s))

deriving instance DecidableEq for Except

/-- A concrete uuid supply for concrete evaluations. -/
def gU : Nat → String := fun _ => "u"

/-- The normalization of `emptyRecord` under `gU`, `now = 0` and the given
organization id. -/
def normEmptyOrg (org : String) : Record :=
  ⟨some (PyVal.str "u"), some (PyVal.str org), some (PyVal.str "u"),
   some (PyVal.ts (some 0)), some (PyVal.str "conversion"),
   some (PyVal.float 0), some (PyVal.str "USD"), some (PyVal.str "unknown"),
   some (PyVal.str "u"), none, none, none, none, none, none, none⟩

/-- A record with a present-but-falsy `id` and a present numeric-string
`event_value`. -/
def recC3 : Record :=
  { emptyRecord with id := some (PyVal.str ""), event_value := some (PyVal.str "2") }

/-- What `validate_events` makes of `recC3` (under `gU`, `now = 0`,
organization `"o"`). -/
def recC3out : Record :=
  ⟨some (PyVal.str "u"), some (PyVal.str "o"), some (PyVal.str "u"),
   some (PyVal.ts (some 0)), some (PyVal.str "conversion"),
   some (PyVal.float 2), some (PyVal.str "USD"), some (PyVal.str "unknown"),
   some (PyVal.str "u"), none, none, none, none, none, none, none⟩

/-- A record whose `event_value` is convertible but whose `timestamp` string
is unparseable. -/
def recC4 : Record :=
  { emptyRecord with timestamp := some (PyVal.str "zzz"),
                     event_value := some (PyVal.float 1) }

/-- A record whose `event_value` is a non-numeric string. -/
def recValBad : Record :=
  { emptyRecord with event_value := some (PyVal.str "abc") }

/-- A resolved configuration with batch size 2. -/
def cfgR : FileConfig :=
  ⟨some "http://cat", some "wh", some "tok", none, none, none,
   some 2, some "default", some "conversion_events"⟩

/-- The catalog before any table exists. -/
def catEmpty : Catalog := ⟨[], 0⟩

/-- A freshly created table (no commits, no snapshots). -/
def tOne : Table := ⟨[], []⟩

/-- A catalog already holding `tOne` under `db.t`. -/
def catOne : Catalog := ⟨[("db.t", tOne)], 1⟩

/-- A catalog holding a never-committed table under the default identifier. -/
def catC8 : Catalog := ⟨[("default.conversion_events", tOne)], 0⟩

/-- Three validated empty records (organization `"o"`). -/
def normListC1 : List Record :=
  [normEmptyOrg "o", normEmptyOrg "o", normEmptyOrg "o"]

/-- The empty configuration file. -/
def fileEmptyCfg : FileConfig :=
  ⟨none, none, none, none, none, none, none, none, none⟩

/-- An environment providing all three required settings. -/
def envFull : EnvVars :=
  ⟨some "http://cat", some "wh", some "tok", none, none, none⟩

/-- The empty environment. -/
def envEmpty : EnvVars := ⟨none, none, none, none, none, none⟩

theorem pyFloat_error_eq (v : PyVal) (err : PyErr) (h : pyFloat v = .error err) :
    err = PyErr.validationError := by
  unfold pyFloat at h
  split at h <;> (try split at h) <;> simp_all

theorem normTimestamp_ok_char (now : Int) (e e' : Record)
    (h : normTimestamp now e = .ok e') :
    ∃ tsv, e' = { e with timestamp := some tsv } := by
  obtain ⟨f1, f2, f3, f4, f5, f6, f7, f8, f9, f10, f11, f12, f13, f14, f15, f16⟩ := e
  unfold normTimestamp at h
  dsimp at h
  split at h <;> (try split at h) <;> first
    | (cases h; exact ⟨_, rfl⟩)
    | simp_all

theorem normTimestamp_error_eq (now : Int) (e : Record) (err : PyErr)
    (h : normTimestamp now e = .error err) : err = PyErr.validationError := by
  unfold normTimestamp at h
  split at h <;> (try split at h) <;> simp_all

theorem normTimestamp_error_ts (now : Int) (e : Record) (err : PyErr)
    (h : normTimestamp now e = .error err) : tsOk e = false := by
  unfold normTimestamp at h
  unfold tsOk
  split at h <;> (try split at h) <;> simp_all

theorem normalizeEvent_ok_char (g : Nat → String) (now : Int) (org : String)
    (e : Record) (c : Nat) (r : Record) (c' : Nat)
    (h : normalizeEvent g now org e c = .ok (r, c')) :
    ∃ q tsv gid geid gsid,
      pyFloat (e.event_value.getD (PyVal.float 0)) = .ok q ∧
      r = { e with
            id := (if truthyOpt e.id then e.id else some (PyVal.str gid)),
            organization_id := some (PyVal.str org),
            timestamp := some tsv,
            event_id := some (e.event_id.getD (PyVal.str geid)),
            event_type := some (e.event_type.getD (PyVal.str "conversion")),
            event_value := some (PyVal.float q),
            currency := some (e.currency.getD (PyVal.str "USD")),
            user_id := some (e.user_id.getD (PyVal.str "unknown")),
            session_id := some (e.session_id.getD (PyVal.str gsid)) } := by
  obtain ⟨f1, f2, f3, f4, f5, f6, f7, f8, f9, f10, f11, f12, f13, f14, f15, f16⟩ := e
  unfold normalizeEvent applyId at h
  by_cases hid : truthyOpt f1
  · simp only [hid, ite_true] at h
    split at h
    · simp_all
    · rename_i e3 hnt
      obtain ⟨tsv, rfl⟩ := normTimestamp_ok_char _ _ _ hnt
      unfold applyDefaults coerceValue at h
      dsimp at h
      split at h
      · simp_all
      · rename_i e5 h5
        split at h5
        · rename_i q hq
          cases h5
          cases h
          exact ⟨q, tsv, g c, g c, g (c + 1), by simpa using hq, by simp [hid]⟩
        · simp_all
  · simp only [hid, ite_false] at h
    split at h
    · simp_all
    · rename_i e3 hnt
      obtain ⟨tsv, rfl⟩ := normTimestamp_ok_char _ _ _ hnt
      unfold applyDefaults coerceValue at h
      dsimp at h
      split at h
      · simp_all
      · rename_i e5 h5
        split at h5
        · rename_i q hq
          cases h5
          cases h
          exact ⟨q, tsv, g c, g (c + 1), g (c + 2), by simpa using hq, by simp [hid]⟩
        · simp_all

theorem normalizeEvent_error_eq (g : Nat → String) (now : Int) (org : String)
    (e : Record) (c : Nat) (err : PyErr)
    (h : normalizeEvent g now org e c = .error err) : err = PyErr.validationError := by
  obtain ⟨f1, f2, f3, f4, f5, f6, f7, f8, f9, f10, f11, f12, f13, f14, f15, f16⟩ := e
  unfold normalizeEvent applyId at h
  by_cases hid : truthyOpt f1 <;>
    simp only [hid, ite_true, ite_false] at h <;>
    · split at h
      · rename_i err2 hnt
        cases h
        exact normTimestamp_error_eq _ _ _ hnt
      · rename_i e3 hnt
        obtain ⟨tsv, rfl⟩ := normTimestamp_ok_char _ _ _ hnt
        unfold applyDefaults coerceValue at h
        dsimp at h
        split at h
        · rename_i err2 h5
          cases h
          split at h5
          · simp_all
          · rename_i err3 hq
            cases h5
            exact pyFloat_error_eq _ _ hq
        · simp_all

theorem normalizeEvent_error_src (g : Nat → String) (now : Int) (org : String)
    (e : Record) (c : Nat) (err : PyErr)
    (h : normalizeEvent g now org e c = .error err) :
    valOk e = false ∨ tsOk e = false := by
  obtain ⟨f1, f2, f3, f4, f5, f6, f7, f8, f9, f10, f11, f12, f13, f14, f15, f16⟩ := e
  unfold normalizeEvent applyId at h
  by_cases hid : truthyOpt f1 <;>
    simp only [hid, ite_true, ite_false] at h <;>
    · split at h
      · rename_i err2 hnt
        right
        have := normTimestamp_error_ts _ _ _ hnt
        simpa [tsOk] using this
      · rename_i e3 hnt
        obtain ⟨tsv, rfl⟩ := normTimestamp_ok_char _ _ _ hnt
        unfold applyDefaults coerceValue at h
        dsimp at h
        split at h
        · rename_i err2 h5
          split at h5
          · simp_all
          · rename_i err3 hq
            left
            cases hf6 : f6 with
            | none => rw [hf6] at hq; simp [pyFloat] at hq
            | some v =>
                rw [hf6] at hq
                simp only [Option.getD_some] at hq
                simp [valOk, hf6, exceptOk, hq]
        · simp_all

theorem normalizeEvent_ok_of (g : Nat → String) (now : Int) (org : String)
    (e : Record) (c : Nat) (hv : valOk e = true) (ht : tsOk e = true) :
    ∃ r c', normalizeEvent g now org e c = .ok (r, c') := by
  cases hres : normalizeEvent g now org e c with
  | ok p =>
      obtain ⟨r, c'⟩ := p
      exact ⟨r, c', rfl⟩
  | error err =>
      rcases normalizeEvent_error_src _ _ _ _ _ _ hres with hb | hb <;> simp_all

theorem validateGo_ok_forall₂ (g : Nat → String) (now : Int) (org : String) :
    ∀ (l : List Record) (c : Nat) (out : List Record),
      validateGo g now org l c = .ok out →
      List.Forall₂
        (fun e r => ∃ c1 c2, normalizeEvent g now org e c1 = .ok (r, c2)) l out := by
  intro l
  induction l with
  | nil =>
      intro c out h
      unfold validateGo at h
      cases h
      exact List.Forall₂.nil
  | cons e rest ih =>
      intro c out h
      unfold validateGo at h
      split at h
      · simp_all
      · rename_i e2 c2 hne
        split at h
        · simp_all
        · rename_i out2 hrest
          cases h
          exact List.Forall₂.cons ⟨c, c2, hne⟩ (ih _ _ hrest)

theorem validate_events_length (g : Nat → String) (now : Int)
    (events : List Record) (org : String) (out : List Record)
    (h : validate_events g now events org = .ok out) : out.length = events.length :=
  ((validateGo_ok_forall₂ g now org events 0 out h).length_eq).symm

theorem validateGo_error_eq (g : Nat → String) (now : Int) (org : String) :
    ∀ (l : List Record) (c : Nat) (err : PyErr),
      validateGo g now org l c = .error err → err = PyErr.validationError := by
  intro l
  induction l with
  | nil => intro c err h; simp [validateGo] at h
  | cons e rest ih =>
      intro c err h
      unfold validateGo at h
      split at h
      · rename_i err2 hne
        cases h
        exact normalizeEvent_error_eq _ _ _ _ _ _ hne
      · rename_i e2 c2 hne
        split at h
        · rename_i err2 hrest
          cases h
          exact ih _ _ hrest
        · simp_all

theorem validateGo_error_of_bad (g : Nat → String) (now : Int) (org : String) :
    ∀ (l : List Record) (c : Nat), (∃ e ∈ l, valOk e = false) →
      validateGo g now org l c = .error PyErr.validationError := by
  intro l
  induction l with
  | nil => rintro c ⟨e, he, _⟩; simp at he
  | cons e0 rest ih =>
      rintro c ⟨e, he, hbad⟩
      rcases List.mem_cons.mp he with rfl | hmem
      · cases hne : normalizeEvent g now org e c with
        | error err =>
            have := normalizeEvent_error_eq _ _ _ _ _ _ hne
            subst this
            simp [validateGo, hne]
        | ok p =>
            obtain ⟨e2, c2⟩ := p
            obtain ⟨q, tsv, gid, geid, gsid, hq, -⟩ :=
              normalizeEvent_ok_char _ _ _ _ _ _ _ hne
            unfold valOk at hbad
            cases hev : e.event_value with
            | none => rw [hev] at hbad; simp at hbad
            | some v =>
                rw [hev] at hbad hq
                simp only [Option.getD_some] at hq
                simp [exceptOk, hq] at hbad
      · cases hne : normalizeEvent g now org e0 c with
        | error err =>
            have := normalizeEvent_error_eq _ _ _ _ _ _ hne
            subst this
            simp [validateGo, hne]
        | ok p =>
            obtain ⟨e2, c2⟩ := p
            have hr := ih c2 ⟨e, hmem, hbad⟩
            simp [validateGo, hne, hr]

theorem validateGo_ok_of (g : Nat → String) (now : Int) (org : String) :
    ∀ (l : List Record) (c : Nat), (∀ e ∈ l, valOk e = true ∧ tsOk e = true) →
      ∃ out, validateGo g now org l c = .ok out := by
  intro l
  induction l with
  | nil => intro c _; exact ⟨[], rfl⟩
  | cons e0 rest ih =>
      intro c hall
      obtain ⟨hv, ht⟩ := hall e0 (List.mem_cons_self _ _)
      obtain ⟨r, c2, hne⟩ := normalizeEvent_ok_of g now org e0 c hv ht
      obtain ⟨out, hrest⟩ := ih c2 (fun e he => hall e (List.mem_cons_of_mem _ he))
      exact ⟨r :: out, by simp [validateGo, hne, hrest]⟩

theorem chunkGo_fuel {α : Type} (bs : Nat) :
    ∀ (n fuel fuel' : Nat) (l : List α),
      l.length ≤ n → l.length ≤ fuel → l.length ≤ fuel' →
      chunkGo bs fuel l = chunkGo bs fuel' l := by
  intro n
  induction n with
  | zero =>
      intro fuel fuel' l h0 _ _
      have : l = [] := by cases l <;> simp_all
      subst this
      cases fuel <;> cases fuel' <;> rfl
  | succ n ih =>
      intro fuel fuel' l h0 h1 h2
      cases l with
      | nil => cases fuel <;> cases fuel' <;> rfl
      | cons x xs =>
          cases fuel with
          | zero => simp at h1
          | succ f =>
              cases fuel' with
              | zero => simp at h2
              | succ f2 =>
                  simp only [chunkGo, List.cons.injEq, true_and]
                  exact ih f f2 (xs.drop (bs - 1))
                    (by simp only [List.length_drop]; simp at h0; omega)
                    (by simp only [List.length_drop]; simp at h1; omega)
                    (by simp only [List.length_drop]; simp at h2; omega)

theorem chunkList_cons {α : Type} (bs : Nat) (x : α) (xs : List α) :
    chunkList bs (x :: xs)
      = (x :: xs.take (bs - 1)) :: chunkList bs (xs.drop (bs - 1)) := by
  unfold chunkList
  simp only [List.length_cons, chunkGo, List.cons.injEq, true_and]
  exact chunkGo_fuel bs xs.length xs.length (xs.drop (bs - 1)).length
    (xs.drop (bs - 1)) (by simp only [List.length_drop]; omega)
    (by simp only [List.length_drop]; omega) (Nat.le_refl _)

theorem chunkList_flatten {α : Type} (bs : Nat) :
    ∀ l : List α, (chunkList bs l).flatten = l
  | [] => by simp [chunkList, chunkGo]
  | x :: xs => by
      rw [chunkList_cons]
      simp only [List.flatten_cons, List.cons_append]
      rw [chunkList_flatten bs (xs.drop (bs - 1))]
      rw [List.take_append_drop]
termination_by l => l.length
decreasing_by simp [List.length_drop]; omega

theorem chunkList_length {α : Type} (bs : Nat) (hbs : 1 ≤ bs) :
    ∀ l : List α, (chunkList bs l).length = (l.length + bs - 1) / bs
  | [] => by
      simp only [chunkList, chunkGo, List.length_nil, Nat.zero_add]
      exact (Nat.div_eq_of_lt (by omega)).symm
  | x :: xs => by
      rw [chunkList_cons]
      simp only [List.length_cons]
      rw [chunkList_length bs hbs (xs.drop (bs - 1))]
      simp only [List.length_drop]
      have hr : xs.length + 1 + bs - 1 = xs.length + bs := by omega
      rw [hr, Nat.add_div_right _ (by omega)]
      rcases Nat.lt_or_ge xs.length bs with hlt | hge
      · have h0 : xs.length - (bs - 1) = 0 ∨ xs.length - (bs - 1) = 1 := by omega
        have hnum : xs.length - (bs - 1) + bs - 1 < bs ∨
            (xs.length - (bs - 1) + bs - 1 = xs.length ∧ xs.length < bs) := by omega
        rcases hnum with hnum | ⟨hnum, _⟩
        · rw [Nat.div_eq_of_lt hnum, Nat.div_eq_of_lt hlt]
        · rw [hnum]
      · have hnum : xs.length - (bs - 1) + bs - 1 = xs.length := by omega
        rw [hnum]
termination_by l => l.length
decreasing_by simp [List.length_drop]; omega

theorem chunkList_size {α : Type} (bs : Nat) (hbs : 1 ≤ bs) :
    ∀ (l : List α) (s : List α), s ∈ chunkList bs l → s.length ≤ bs
  | [], s => by simp [chunkList, chunkGo]
  | x :: xs, s => by
      rw [chunkList_cons]
      simp only [List.mem_cons]
      rintro (rfl | hmem)
      · have := List.length_take_le (bs - 1) xs
        simp only [List.length_cons]
        omega
      · exact chunkList_size bs hbs (xs.drop (bs - 1)) s hmem
termination_by l _ => l.length
decreasing_by simp [List.length_drop]; omega

theorem foldl_append_committed (t : Table) (l : List (List Row)) :
    (List.foldl Table.append t l).committed = t.committed ++ l := by
  induction l generalizing t with
  | nil => simp
  | cons b rest ih =>
      simp only [List.foldl_cons, ih, Table.append, List.append_assoc,
        List.singleton_append]

theorem lookup_ensure_self (c : Catalog) (ident : String)
    (hn : c.lookup ident = none) :
    (ensureTable c ident).2.lookup ident = some (ensureTable c ident).1 := by
  unfold ensureTable
  rw [hn]
  simp [Catalog.lookup, lookupTable]

theorem validateHeapGo_frame (g : Nat → String) (now : Int) (org : String) :
    ∀ (addrs : List Nat) (c : Nat) (heap : List Record)
      (outs : List Nat) (heap2 : List Record),
      validateHeapGo g now org addrs c heap = .ok (outs, heap2) →
      outs = addrs ∧ heap2.length = heap.length ∧
        (∀ b, b ∉ addrs → heap2.get? b = heap.get? b) := by
  intro addrs
  induction addrs with
  | nil =>
      intro c heap outs heap2 h
      unfold validateHeapGo at h
      cases h
      exact ⟨rfl, rfl, fun b _ => rfl⟩
  | cons a rest ih =>
      intro c heap outs heap2 h
      unfold validateHeapGo at h
      split at h
      · simp_all
      · rename_i e hget
        split at h
        · simp_all
        · rename_i e2 c2 hne
          split at h
          · simp_all
          · rename_i outs3 heap3 hrest
            cases h
            obtain ⟨h1, h2, h3⟩ := ih c2 (heap.set a e2) _ _ hrest
            refine ⟨by rw [h1], by rw [h2, List.length_set], ?_⟩
            intro b hb
            have hba : a ≠ b := fun hh => hb (hh ▸ List.mem_cons_self _ _)
            have hbr : b ∉ rest := fun hh => hb (List.mem_cons_of_mem _ hh)
            rw [h3 b hbr, List.get?_set_ne _ _ hba]

theorem mem_right_of_forall₂ {α β : Type} {R : α → β → Prop} :
    ∀ {l1 : List α} {l2 : List β}, List.Forall₂ R l1 l2 →
      ∀ b ∈ l2, ∃ a ∈ l1, R a b := by
  intro l1 l2 hf
  induction hf with
  | nil => intro b hb; simp at hb
  | cons hab _ ih =>
      intro b hb
      rcases List.mem_cons.mp hb with rfl | hb2
      · exact ⟨_, List.mem_cons_self _ _, hab⟩
      · obtain ⟨a, ha, hr⟩ := ih b hb2
        exact ⟨a, List.mem_cons_of_mem _ ha, hr⟩

/-- C2: for every input record and caller-supplied organization id, after a
successful validation every output record's `organization_id` equals the
caller-supplied value, regardless of any value present in the input. -/
theorem c2_organization_id_overwritten (g : Nat → String) (now : Int)
    (events : List Record) (org : String) (out : List Record)
    (h : validate_events g now events org = .ok out) :
    ∀ r ∈ out, r.organization_id = some (PyVal.str org) := by
  intro r hr
  obtain ⟨e, -, c1, c2, hne⟩ :=
    mem_right_of_forall₂ (validateGo_ok_forall₂ g now org events 0 out h) r hr
  obtain ⟨q, tsv, gid, geid, gsid, -, rfl⟩ :=
    normalizeEvent_ok_char _ _ _ _ _ _ _ hne
  rfl

/-- Witness for C2 at a concrete input. -/
theorem c2_witness : (normEmptyOrg "acme").organization_id
    = some (PyVal.str "acme") :=
  c2_organization_id_overwritten gU 0 [emptyRecord] "acme" [normEmptyOrg "acme"]
    (by decide) (normEmptyOrg "acme") (List.mem_singleton.mpr rfl)

/-- C3 counterexample: a record carrying a present (but falsy) `id` value
`""` and a present `event_value` string `"2"` has both present values
overwritten by validation, contradicting "never overwrites a value that is
present in the input record". -/
theorem c3_counterexample :
    validate_events gU 0 [recC3] "o" = .ok [recC3out]
    ∧ recC3.id = some (PyVal.str "")
    ∧ recC3out.id ≠ some (PyVal.str "")
    ∧ recC3.event_value = some (PyVal.str "2")
    ∧ recC3out.event_value ≠ some (PyVal.str "2") := by
  refine ⟨by decide, rfl, by decide, rfl, by decide⟩

/-- C3 (amended): validation fills `event_id`, `event_type`, `event_value`,
`currency`, `user_id` and `session_id` with their specified defaults exactly
when absent and otherwise keeps the present value (the present-or-defaulted
`event_value` being subsequently coerced to a double), while `id` is
replaced by a generated uuid exactly when absent or falsy (e.g. `""` or
`None`) and kept only when truthy. -/
theorem c3_defaults_amended (g : Nat → String) (now : Int)
    (events : List Record) (org : String) (out : List Record)
    (h : validate_events g now events org = .ok out) :
    List.Forall₂ defaultsRel events out := by
  refine (validateGo_ok_forall₂ g now org events 0 out h).imp ?_
  rintro e r ⟨c1, c2, hne⟩
  obtain ⟨q, tsv, gid, geid, gsid, hq, rfl⟩ :=
    normalizeEvent_ok_char _ _ _ _ _ _ _ hne
  unfold defaultsRel
  refine ⟨?_, ?_, ?_, ?_, ?_, ?_, ?_⟩
  · by_cases hid : truthyOpt e.id <;> simp [hid]
  · cases h3 : e.event_id <;> simp [h3]
  · cases h5 : e.event_type <;> simp [h5]
  · cases h6 : e.event_value with
    | none =>
        rw [h6] at hq
        simp only [Option.getD_none, pyFloat, Except.ok.injEq] at hq
        subst hq
        rfl
    | some v =>
        rw [h6] at hq
        simp only [Option.getD_some] at hq
        exact ⟨q, hq, rfl⟩
  · cases h7 : e.currency <;> simp [h7]
  · cases h8 : e.user_id <;> simp [h8]
  · cases h9 : e.session_id <;> simp [h9]

/-- Witness for C3 (amended) at a concrete input. -/
theorem c3_witness : List.Forall₂ defaultsRel [recC3] [recC3out] :=
  c3_defaults_amended gU 0 [recC3] "o" [recC3out] (by decide)

/-- C4 counterexample: a one-record batch whose only `event_value` is
convertible (the float 1) nevertheless fails validation, because its
timestamp string is unparseable — refuting "for every record set in which
all event_value fields are convertible, validation succeeds". -/
theorem c4_counterexample :
    (∀ e ∈ [recC4], valOk e = true)
    ∧ validate_events gU 0 [recC4] "o" = .error PyErr.validationError := by
  exact ⟨by decide, by decide⟩

/-- C4 (amended): a batch containing a record whose `event_value` cannot be
converted fails as a whole with `ValidationError` (no partial acceptance);
and when every `event_value` is convertible and additionally every
`timestamp` is parseable, validation succeeds and coerces every
`event_value` to a double. -/
theorem c4_value_coercion_amended (g : Nat → String) (now : Int)
    (events : List Record) (org : String) :
    ((∃ e ∈ events, valOk e = false) →
        validate_events g now events org = .error PyErr.validationError)
    ∧ ((∀ e ∈ events, valOk e = true ∧ tsOk e = true) →
        ∃ out, validate_events g now events org = .ok out
          ∧ ∀ r ∈ out, ∃ q, r.event_value = some (PyVal.float q)) := by
  constructor
  · intro hbad
    exact validateGo_error_of_bad g now org events 0 hbad
  · intro hall
    obtain ⟨out, hout⟩ := validateGo_ok_of g now org events 0 hall
    refine ⟨out, hout, ?_⟩
    intro r hr
    obtain ⟨e, -, c1, c2, hne⟩ :=
      mem_right_of_forall₂ (validateGo_ok_forall₂ g now org events 0 out hout) r hr
    obtain ⟨q, tsv, gid, geid, gsid, -, rfl⟩ :=
      normalizeEvent_ok_char _ _ _ _ _ _ _ hne
    exact ⟨q, rfl⟩

/-- Witness for C4 (amended) at concrete inputs: a batch with an
unconvertible value fails whole; a convertible batch succeeds coerced. -/
theorem c4_witness :
    validate_events gU 0 [recValBad] "o" = .error PyErr.validationError
    ∧ ∃ out, validate_events gU 0 [recC3] "o" = .ok out
        ∧ ∀ r ∈ out, ∃ q, r.event_value = some (PyVal.float q) :=
  ⟨(c4_value_coercion_amended gU 0 [recValBad] "o").1
      ⟨recValBad, List.mem_singleton.mpr rfl, by decide⟩,
   (c4_value_coercion_amended gU 0 [recC3] "o").2 (by decide)⟩

/-- C5 counterexample: a non-empty one-record input on which validation
fails makes the dry run raise `ValidationError` instead of returning the
count 1 — refuting "for every non-empty input of N records, dry run returns
exactly N". -/
theorem c5_counterexample :
    ([recValBad] : List Record) ≠ []
    ∧ bulk_load cfgR catEmpty gU 0 [recValBad] "o" true
        = .error PyErr.validationError := by
  exact ⟨by decide, by decide⟩

/-- C5 (amended): for every non-empty input on which validation succeeds,
the dry run returns exactly the input count and returns the catalog
untouched — no table provisioning call, no append commit, table
unmodified. -/
theorem c5_dry_run_amended (cfg : FileConfig) (cat : Catalog)
    (g : Nat → String) (now : Int) (events : List Record) (org : String)
    (out : List Record) (hne : events ≠ [])
    (hv : validate_events g now events org = .ok out) :
    bulk_load cfg cat g now events org true = .ok (events.length, cat) := by
  have hlen := validate_events_length g now events org out hv
  unfold bulk_load
  rw [hv]
  cases hout : out with
  | nil =>
      subst hout
      simp only [List.length_nil] at hlen
      exact absurd (List.length_eq_zero.mp hlen.symm) hne
  | cons r tl =>
      subst hout
      simp only [if_true]
      rw [← hlen]

/-- Witness for C5 (amended) at a concrete input. -/
theorem c5_witness :
    bulk_load cfgR catEmpty gU 0 [emptyRecord] "o" true
      = .ok (([emptyRecord] : List Record).length, catEmpty) :=
  c5_dry_run_amended cfgR catEmpty gU 0 [emptyRecord] "o" [normEmptyOrg "o"]
    (by decide) (by decide)

/-- C9: the dry run on the empty record set does not return 0 but raises
`IndexError` (the sample-record report indexes `validated_events[0]`), and
a successful dry-run return implies the input was non-empty. -/
theorem c9_dry_run_empty (cfg : FileConfig) (cat : Catalog)
    (g : Nat → String) (now : Int) (org : String) :
    bulk_load cfg cat g now [] org true = .error PyErr.indexError
    ∧ ∀ (events : List Record) (n : Nat) (cat' : Catalog),
        bulk_load cfg cat g now events org true = .ok (n, cat') →
        events ≠ [] := by
  constructor
  · rfl
  · intro events n cat' h hnil
    subst hnil
    rw [show bulk_load cfg cat g now [] org true = .error PyErr.indexError
      from rfl] at h
    exact Except.noConfusion h

/-- Witness for C9 at concrete inputs. -/
theorem c9_witness :
    bulk_load cfgR catEmpty gU 0 [] "o" true = .error PyErr.indexError
    ∧ ([emptyRecord] : List Record) ≠ [] :=
  ⟨(c9_dry_run_empty cfgR catEmpty gU 0 "o").1,
   (c9_dry_run_empty cfgR catEmpty gU 0 "o").2 [emptyRecord] 1 catEmpty
     (by decide)⟩

/-- C10: in the store view, a successful validation returns exactly the
input record addresses in order (the very same dictionary objects — none
dropped, order preserved), mutating the caller's store in place: the store
keeps its size and cells outside the input addresses are untouched. -/
theorem c10_in_place (g : Nat → String) (now : Int) (org : String)
    (addrs : List Nat) (heap : List Record) (outs : List Nat)
    (heap2 : List Record)
    (h : validate_events_heap g now addrs heap org = .ok (outs, heap2)) :
    outs = addrs ∧ heap2.length = heap.length
    ∧ ∀ b, b ∉ addrs → heap2.get? b = heap.get? b :=
  validateHeapGo_frame g now org addrs 0 heap outs heap2 h

/-- Witness for C10 at a concrete input. -/
theorem c10_witness :
    ([0] : List Nat) = [0]
    ∧ ([normEmptyOrg "o", emptyRecord] : List Record).length
        = ([emptyRecord, emptyRecord] : List Record).length
    ∧ ∀ b, b ∉ ([0] : List Nat) →
        ([normEmptyOrg "o", emptyRecord] : List Record).get? b
          = ([emptyRecord, emptyRecord] : List Record).get? b :=
  c10_in_place gU 0 "o" [0] [emptyRecord, emptyRecord] [0]
    [normEmptyOrg "o", emptyRecord] (by decide)

theorem ensure_of_lookup (c : Catalog) (ident : String) (t : Table)
    (ht : c.lookup ident = some t) : ensureTable c ident = (t, c) := by
  unfold ensureTable
  rw [ht]

/-- C6: table provisioning is idempotent — when the load succeeds the table
is returned unchanged with no create call (the catalog state, including its
create-call count, is untouched); and from a state without the table, two
provisioning calls issue exactly one create call, the second returning the
same table handle. -/
theorem c6_provision_idempotent (cat : Catalog) (ident : String) :
    (∀ t, cat.lookup ident = some t → ensureTable cat ident = (t, cat))
    ∧ (cat.lookup ident = none →
        (ensureTable (ensureTable cat ident).2 ident).1
            = (ensureTable cat ident).1
        ∧ (ensureTable (ensureTable cat ident).2 ident).2.createCalls
            = cat.createCalls + 1) := by
  constructor
  · intro t ht
    exact ensure_of_lookup cat ident t ht
  · intro hn
    have hl := lookup_ensure_self cat ident hn
    rw [ensure_of_lookup _ _ _ hl]
    refine ⟨rfl, ?_⟩
    unfold ensureTable
    rw [hn]

/-- Witness for C6 at concrete inputs: a catalog already holding the table,
and a run starting from the empty catalog. -/
theorem c6_witness :
    ensureTable catOne "db.t" = (tOne, catOne)
    ∧ ((ensureTable (ensureTable catEmpty "db.t").2 "db.t").1
          = (ensureTable catEmpty "db.t").1
       ∧ (ensureTable (ensureTable catEmpty "db.t").2 "db.t").2.createCalls
          = catEmpty.createCalls + 1) :=
  ⟨(c6_provision_idempotent catOne "db.t").1 tOne (by decide),
   (c6_provision_idempotent catEmpty "db.t").2 (by decide)⟩

/-- C7: configuration resolution on the merged configuration fails with the
error naming exactly the absent required keys when any of the three is
missing; with all three present it succeeds, applying the defaults
batch_size = 10000, namespace = "default", table_name = "conversion_events"
exactly to the absent keys and keeping everything else. -/
theorem c7_config_resolution (file : FileConfig) (env : EnvVars) :
    (missingRequired (mergeConfig file env) ≠ [] →
        load_config file env
          = .error (PyErr.configMissing (missingRequired (mergeConfig file env))))
    ∧ (∀ k, k ∈ missingRequired (mergeConfig file env) ↔
        ((k = "catalog_uri" ∧ (mergeConfig file env).catalog_uri = none)
         ∨ (k = "warehouse_name" ∧ (mergeConfig file env).warehouse_name = none)
         ∨ (k = "api_token" ∧ (mergeConfig file env).api_token = none)))
    ∧ (missingRequired (mergeConfig file env) = [] →
        load_config file env = .ok { mergeConfig file env with
          batch_size := some ((mergeConfig file env).batch_size.getD 10000),
          nspace := some ((mergeConfig file env).nspace.getD "default"),
          table_name :=
            some ((mergeConfig file env).table_name.getD "conversion_events") }) := by
  refine ⟨?_, ?_, ?_⟩
  · intro hne
    unfold load_config
    dsimp only
    split
    · rename_i hm
      exact absurd hm hne
    · rfl
  · intro k
    unfold missingRequired
    cases h1 : (mergeConfig file env).catalog_uri <;>
      cases h2 : (mergeConfig file env).warehouse_name <;>
      cases h3 : (mergeConfig file env).api_token <;>
      simp
  · intro hm
    unfold load_config
    dsimp only
    split
    · rfl
    · rename_i ms hm2
      rw [hm] at hm2
      exact absurd rfl hm2

/-- Witness for C7 at concrete inputs: an empty merged configuration fails
naming all three keys; a complete one resolves with the defaults. -/
theorem c7_witness :
    load_config fileEmptyCfg envEmpty
      = .error (PyErr.configMissing (missingRequired (mergeConfig fileEmptyCfg envEmpty)))
    ∧ load_config fileEmptyCfg envFull
      = .ok { mergeConfig fileEmptyCfg envFull with
          batch_size := some ((mergeConfig fileEmptyCfg envFull).batch_size.getD 10000),
          nspace := some ((mergeConfig fileEmptyCfg envFull).nspace.getD "default"),
          table_name :=
            some ((mergeConfig fileEmptyCfg envFull).table_name.getD "conversion_events") } :=
  ⟨(c7_config_resolution fileEmptyCfg envEmpty).1 (by decide),
   (c7_config_resolution fileEmptyCfg envFull).2.2 (by decide)⟩

/-- C8: when the table loads but has no current snapshot, the stats report
zero row, file and size counts and an absent last-updated time; when loading
the table fails, the stats operation returns the empty result instead of
raising. -/
theorem c8_stats_empty (cat : Catalog) (cfg : FileConfig) (ns tn : String)
    (hns : cfg.nspace = some ns) (htn : cfg.table_name = some tn) :
    (∀ t, cat.lookup (ns ++ "." ++ tn) = some t → t.current_snapshot = none →
        query_table_stats cat cfg
          = .ok (some ⟨ns ++ "." ++ tn, 0, 0, 0, t.snapshots.length, none⟩))
    ∧ (cat.lookup (ns ++ "." ++ tn) = none →
        query_table_stats cat cfg = .ok none) := by
  constructor
  · intro t ht hsnap
    unfold query_table_stats
    rw [hns, htn]
    dsimp only
    rw [ht]
    dsimp only
    unfold mkStats
    rw [hsnap]
  · intro hn
    unfold query_table_stats
    rw [hns, htn]
    dsimp only
    rw [hn]

/-- Witness for C8 at concrete inputs: a never-committed table, and a
catalog without the table. -/
theorem c8_witness :
    query_table_stats catC8 cfgR
      = .ok (some ⟨"default" ++ "." ++ "conversion_events", 0, 0, 0,
          tOne.snapshots.length, none⟩)
    ∧ query_table_stats catEmpty cfgR = .ok none :=
  ⟨(c8_stats_empty catC8 cfgR "default" "conversion_events" rfl rfl).1 tOne
      (by decide) (by decide),
   (c8_stats_empty catEmpty cfgR "default" "conversion_events" rfl rfl).2
      (by decide)⟩

/-- C1: for every validated record set and `batch_size ≥ 1`, the non-dry
bulk load returns the total row count and commits, in order, exactly the
contiguous slices of at most `batch_size` rows whose count is
`ceil(total / batch_size)` and whose concatenation in commit order is
exactly the full normalized row list. -/
theorem c1_bulk_load_batches (cfg : FileConfig) (cat : Catalog)
    (g : Nat → String) (now : Int) (events : List Record) (org : String)
    (out : List Record) (bs : Nat) (ns tn : String)
    (hns : cfg.nspace = some ns) (htn : cfg.table_name = some tn)
    (hbs : cfg.batch_size = some bs) (hbs1 : 1 ≤ bs)
    (hv : validate_events g now events org = .ok out) :
    bulk_load cfg cat g now events org false
      = .ok (out.length,
          Catalog.store (ensureTable cat (ns ++ "." ++ tn)).2 (ns ++ "." ++ tn)
            (List.foldl Table.append (ensureTable cat (ns ++ "." ++ tn)).1
              (chunkList bs (out.map recordToRow))))
    ∧ (List.foldl Table.append (ensureTable cat (ns ++ "." ++ tn)).1
          (chunkList bs (out.map recordToRow))).committed
        = (ensureTable cat (ns ++ "." ++ tn)).1.committed
            ++ chunkList bs (out.map recordToRow)
    ∧ (chunkList bs (out.map recordToRow)).length = (out.length + bs - 1) / bs
    ∧ (∀ s ∈ chunkList bs (out.map recordToRow), s.length ≤ bs)
    ∧ (chunkList bs (out.map recordToRow)).flatten = out.map recordToRow := by
  refine ⟨?_, foldl_append_committed _ _, ?_,
    fun s hs => chunkList_size bs hbs1 _ s hs, chunkList_flatten bs _⟩
  · unfold bulk_load
    rw [hv]
    simp only [Bool.false_eq_true, if_false]
    rw [hns, htn]
    dsimp only
    rw [hbs]
    dsimp only
    rw [if_neg (by omega)]
    simp [List.length_map]
  · rw [chunkList_length bs hbs1]
    rw [List.length_map]

/-- Witness for C1 at a concrete input: three records, batch size 2. -/
theorem c1_witness :
    bulk_load cfgR catEmpty gU 0 [emptyRecord, emptyRecord, emptyRecord] "o" false
      = .ok (normListC1.length,
          Catalog.store (ensureTable catEmpty ("default" ++ "." ++ "conversion_events")).2
            ("default" ++ "." ++ "conversion_events")
            (List.foldl Table.append
              (ensureTable catEmpty ("default" ++ "." ++ "conversion_events")).1
              (chunkList 2 (normListC1.map recordToRow))))
    ∧ (List.foldl Table.append
          (ensureTable catEmpty ("default" ++ "." ++ "conversion_events")).1
          (chunkList 2 (normListC1.map recordToRow))).committed
        = (ensureTable catEmpty ("default" ++ "." ++ "conversion_events")).1.committed
            ++ chunkList 2 (normListC1.map recordToRow)
    ∧ (chunkList 2 (normListC1.map recordToRow)).length
        = (normListC1.length + 2 - 1) / 2
    ∧ (∀ s ∈ chunkList 2 (normListC1.map recordToRow), s.length ≤ 2)
    ∧ (chunkList 2 (normListC1.map recordToRow)).flatten
        = normListC1.map recordToRow :=
  c1_bulk_load_batches cfgR catEmpty gU 0 [emptyRecord, emptyRecord, emptyRecord]
    "o" normListC1 2 "default" "conversion_events" rfl rfl rfl (by omega) (by decide)
